import Mathlib

/-!
# Verification of the collaborative drawing board's sync and tenant services

This development gives a shallow embedding, in Lean, of the core services of
the collaborative drawing board repository:

* `src/services/remoteDb.ts` — the tenant access service (`RemoteDbService`):
  `verifyTenantAccess`, `createTenant`, `addUserToTenant`, and the remote
  connection configuration check `getRemoteDb`;
* `src/services/db.ts` — the tenant session manager (`DatabaseService`):
  `initialize`, `syncWithRemote`, `close`, `ensureInitialized`, and the
  document operations `get`/`put`/`find`/`allDocs`/`remove`/`changes`;
* `src/components/DrawingBoard.tsx` and its alternative revision (the
  `setupChangesFeed` variant) — the live change-feed fold for shape and
  cursor documents, and the cursor render projection.

The document store (PouchDB/CouchDB) is modelled as an association list of
documents keyed by `_id`, with CouchDB's revision check on `put`: a put
whose `_rev` does not match the stored revision (or a put without `_rev`
against an existing document) fails with status 409; a `get` of a missing
document fails with status 404.  Stateful service methods are embedded as
pure functions from the pre-state to a result together with the post-state,
and, for the session lifecycle, an explicit trace of the side-effecting
steps they perform (cancel sync, close/open a local replica, …), so that
ordering claims can be stated about that trace.
-/

deriving instance DecidableEq for Except

namespace CollabBoard

/-! ## Tenant relations store (`src/services/remoteDb.ts`)

The `UsersDoc` interface of `remoteDb.ts` (lines 8–15): one document per
tenant, holding the member list `users`, the `owner`, and timestamps.
`docId` stands for the document's `_id`; `rev` models the CouchDB `_rev`,
with `rev = 0` encoding a document sent without a `_rev` (a fresh create).
Timestamps are `Nat` milliseconds.  -/

structure UsersDoc where
  docId : String
  rev : Nat
  users : List String
  owner : String
  createdAt : Nat
  updatedAt : Nat
deriving Repr, DecidableEq

/-- Errors surfaced by the document store.  PouchDB errors carry a numeric
`status` (404 not-found, 409 conflict); a plain `Error` (for example the
missing-configuration error thrown by `getRemoteDb`) has no status, which
`noStatus` encodes.  -/
inductive DbError where
  | status (code : Nat)
  | noStatus
deriving Repr, DecidableEq

/-- A (remote) database holding `UsersDoc`s: an association list from `_id`
to document.  -/
abbrev Store := List (String × UsersDoc)

/-- Operation `db.get(k)`: return the document stored under `k`, or fail with
status 404 when there is none.  -/
def Store.getDoc (db : Store) (k : String) : Except DbError UsersDoc :=
  match db.find? (fun kv => kv.1 == k) with
  | some kv => .ok kv.2
  | none => .error (.status 404)

/-- Operation `db.put(doc)`: CouchDB's conditional write.  If a document with the same
`_id` exists, the put succeeds only when the incoming `_rev` matches the
stored revision (the revision is then bumped); otherwise it fails with
status 409.  If no such document exists, only a put without `_rev`
(`rev = 0`) succeeds, storing the document at revision 1.  -/
def Store.putDoc (db : Store) (doc : UsersDoc) : Except DbError Store :=
  match db.find? (fun kv => kv.1 == doc.docId) with
  | some kv =>
      if doc.rev == kv.2.rev then
        .ok (db.map (fun kv' =>
          if kv'.1 == doc.docId then (kv'.1, { doc with rev := doc.rev + 1 }) else kv'))
      else .error (.status 409)
  | none =>
      if doc.rev == 0 then .ok ((doc.docId, { doc with rev := 1 }) :: db)
      else .error (.status 409)

/-- Method `RemoteDbService.verifyTenantAccess` (remoteDb.ts lines 37–50), over an
abstract fetch oracle standing for `remoteDb.get` against the relations
database (the oracle may also return the configuration error thrown by
`getRemoteDb`, or any transport error): fetch the tenant's document by key,
return whether the user is in its `users` list; a 404 is turned into
`false`, every other error is rethrown.  -/
def verifyTenantAccess (fetch : String → Except DbError UsersDoc)
    (tenantEmail userEmail : String) : Except DbError Bool :=
  match fetch tenantEmail with
  | .ok doc => .ok (doc.users.contains userEmail)
  | .error e => if e == .status 404 then .ok false else .error e

/-- Method `RemoteDbService.createTenant` (remoteDb.ts lines 52–80).  The code
first does `remoteDb.get('users')` — the literal key `'users'`, not the
tenant's key — and returns `false` ("tenant already exists") when that get
succeeds; a non-404 error from it is rethrown.  It then puts a fresh
document with `_id = tenantEmail`, `users = [tenantEmail]`,
`owner = tenantEmail`.  The result pairs the returned value (or thrown
error) with the store after the call.  -/
def createTenant (db : Store) (tenantEmail : String) (now : Nat) :
    (Except DbError Bool) × Store :=
  match db.getDoc "users" with
  | .ok _ => (.ok false, db)
  | .error e =>
    if e == .status 404 then
      match db.putDoc
          { docId := tenantEmail, rev := 0, users := [tenantEmail],
            owner := tenantEmail, createdAt := now, updatedAt := now } with
      | .ok db' => (.ok true, db')
      | .error e' => (.error e', db)
    else (.error e, db)

/-- Method `RemoteDbService.addUserToTenant` (remoteDb.ts lines 82–98): fetch the
tenant's document; when the user is not yet in `users`, append them, bump
`updatedAt` and put the document back (with its `_rev`, so the put updates
in place); return `true`; errors are rethrown.  -/
def addUserToTenant (db : Store) (tenantEmail userEmail : String) (now : Nat) :
    (Except DbError Bool) × Store :=
  match db.getDoc tenantEmail with
  | .error e => (.error e, db)
  | .ok doc =>
    if doc.users.contains userEmail then (.ok true, db)
    else
      match db.putDoc { doc with users := doc.users ++ [userEmail], updatedAt := now } with
      | .ok db' => (.ok true, db')
      | .error e => (.error e, db)

/-- The Tenant-document invariant of the spec: every stored tenant document
has its `owner` among its `users` (members).  -/
def TenantInv (db : Store) : Prop := ∀ kv ∈ db, kv.2.owner ∈ kv.2.users

/-- A concrete fetch oracle used to instantiate the access theorems: the
relations database holds one document for tenant key `acme` owned by
`carol@x.com`, and nothing else.  -/
def demoFetch : String → Except DbError UsersDoc := fun k =>
  if k == "acme" then
    .ok { docId := "acme", rev := 1, users := ["carol@x.com"],
          owner := "carol@x.com", createdAt := 0, updatedAt := 0 }
  else .error (.status 404)

/-! ## Remote connection configuration and name derivation
(`DatabaseService.getRemoteDb`, db.ts lines 53–70, and
`RemoteDbService.getRemoteDb`, remoteDb.ts lines 20–35 — identical
checks and URL derivation) -/

/-- The three `import.meta.env` connection parameters; `none` models an
unset variable.  -/
structure Env where
  couchdbUrl : Option String
  couchdbUser : Option String
  couchdbPassword : Option String
deriving Repr, DecidableEq

/-- JavaScript truthiness of an optional string environment variable, as
tested by `if (!remoteUrl || !username || !password)`: an unset variable
and the empty string are both falsy.  -/
def envTruthy : Option String → Bool
  | none => false
  | some s => !(s == "")

/-- Expression `tenantEmail.split('@')[0]`, as a character list: the characters before
the first separator (the whole string when the separator does not occur).  -/
def splitHead (sep : Char) : List Char → List Char
  | [] => []
  | c :: cs => if c = sep then [] else c :: splitHead sep cs

/-- Expression `s.split(sep)[1]`, as a character list: the characters strictly between
the first separator and the next one.  (Every shape `_id` has the form
`shape:<id>`, so the segment exists on all inputs the handler sees.)  -/
def splitSnd (sep : Char) : List Char → List Char
  | [] => []
  | c :: cs => if c = sep then cs.takeWhile (fun c' => !(c' == sep)) else splitSnd sep cs

/-- The tenant id derived from the tenant email: `tenantEmail.split('@')[0]`
(db.ts lines 38, 63, 82; remoteDb.ts line 29).  -/
def localPart (e : String) : List Char := splitHead '@' e.data

/-- The local replica's name, db.ts lines 38 and 89:
`` `${tenantEmail.split('@')[0]}-collaborative-board` ``.  -/
def localDbName (e : String) : List Char :=
  localPart e ++ "-collaborative-board".data

/-- The value returned by a successful `getRemoteDb`: the remote database
URL plus the basic-auth credentials passed to the PouchDB constructor.  -/
structure RemoteHandle where
  url : List Char
  username : String
  password : String
deriving Repr, DecidableEq

/-- Method `getRemoteDb(tenantEmail)`: read the three connection parameters; when
any is unset or empty throw the configuration error; otherwise open a
handle on `` `${remoteUrl}/${tenantId}-collaborative-board` ``.  -/
def getRemoteDb (env : Env) (tenantEmail : String) : Except String RemoteHandle :=
  if !(envTruthy env.couchdbUrl) || !(envTruthy env.couchdbUser)
      || !(envTruthy env.couchdbPassword) then
    .error "CouchDB environment variables are not set"
  else
    .ok { url := (env.couchdbUrl.getD "").data ++ "/".data
                   ++ localPart tenantEmail ++ "-collaborative-board".data,
          username := env.couchdbUser.getD "",
          password := env.couchdbPassword.getD "" }

/-! ## Tenant session manager lifecycle (`src/services/db.ts`) -/

/-- The observable side-effecting steps of the session lifecycle, in the
order the service performs them.  -/
inductive Event where
  | cancelFeed (id : Nat)
  | cancelSync
  | closeLocal (name : List Char)
  | openLocal (name : List Char)
  | openRemote (url : List Char)
  | startSync (name : List Char)
deriving Repr, DecidableEq

/-- The in-memory state of the `DatabaseService` singleton: the name of the
replica currently referenced by `this.db`, whether a sync handler object
exists (`this.syncHandler !== null`; note that `cancel()` does not null the
field), the ids of the feeds registered in `activeChangesFeeds`, the tenant
id, and the `isInitialized` flag.  -/
structure SessionState where
  localName : List Char
  hasSync : Bool
  feeds : List Nat
  tenantId : Option (List Char)
  isInitialized : Bool
deriving Repr, DecidableEq

/-- Method `DatabaseService.syncWithRemote` (db.ts lines 72–127): cancel an
existing sync handler; obtain the remote handle (rethrowing the missing-
configuration error); close the current local replica; open a fresh local
replica named `<localpart>-collaborative-board`; start live sync; record
the tenant id.  The result carries the trace of steps performed, also on
the failing path.  -/
def syncWithRemote (env : Env) (tenantEmail : String) (s : SessionState) :
    (Except String SessionState) × List Event :=
  let t0 : List Event := if s.hasSync then [.cancelSync] else []
  match getRemoteDb env tenantEmail with
  | .error e => (.error e, t0)
  | .ok h =>
    let name := localDbName tenantEmail
    (.ok { localName := name, hasSync := true, feeds := s.feeds,
           tenantId := some (localPart tenantEmail),
           isInitialized := s.isInitialized },
     t0 ++ [.openRemote h.url, .closeLocal s.localName, .openLocal name, .startSync name])

/-- Method `DatabaseService.initialize` (db.ts lines 28–51): cancel an existing
sync handler, close the current local replica, open the replica named from
the tenant email, then run `syncWithRemote` (which closes and reopens that
replica); only on success set `isInitialized`.  -/
def initializeDb (env : Env) (tenantEmail : String) (s : SessionState) :
    (Except String SessionState) × List Event :=
  let name := localDbName tenantEmail
  let t0 : List Event :=
    (if s.hasSync then [.cancelSync] else []) ++ [.closeLocal s.localName, .openLocal name]
  match syncWithRemote env tenantEmail { s with localName := name } with
  | (.ok s', tr) => (.ok { s' with isInitialized := true }, t0 ++ tr)
  | (.error e, tr) => (.error e, t0 ++ tr)

/-- Method `DatabaseService.close` (db.ts lines 237–262): cancel every registered
change feed and clear the set, cancel the sync handler when present, then
close the local replica.  -/
def closeSession (s : SessionState) : SessionState × List Event :=
  ({ s with feeds := [] },
   s.feeds.map Event.cancelFeed ++ (if s.hasSync then [.cancelSync] else [])
     ++ [.closeLocal s.localName])

/-- Net effect of a step on the number of open local replica handles.  -/
def eventDelta : Event → Int
  | .openLocal _ => 1
  | .closeLocal _ => -1
  | _ => 0

/-- The number of open local replica handles after each prefix of a trace,
starting from `n₀` open handles.  -/
def openCounts (n₀ : Int) (tr : List Event) : List Int :=
  tr.scanl (fun n e => n + eventDelta e) n₀

/-- A fully-populated connection configuration, for concrete runs.  -/
def fullEnv : Env :=
  { couchdbUrl := some "http://db:5984", couchdbUser := some "admin",
    couchdbPassword := some "secret" }

/-- A running session for tenant `old`, with sync live and one change feed
(id 7) registered, as it stands right before a tenant switch.  -/
def oldSession : SessionState :=
  { localName := "old-collaborative-board".data, hasSync := true,
    feeds := [7], tenantId := some "old".data, isInitialized := true }

/-! ## Document operations of the database service (db.ts lines 129–219)

The local replica's documents are modelled as an association list from
`_id` to an opaque payload.  Revision arbitration on local writes is not
modelled here: the properties below concern only the initialization gate
(`ensureInitialized`) in front of each operation and whether the store is
left untouched when the gate fails.  -/

abbrev LocalStore := List (String × String)

/-- Method `DatabaseService.ensureInitialized` (db.ts lines 129–138).  The
`initPromise` awaited inside is the already-resolved promise assigned in
the constructor and is never reassigned, so awaiting it cannot change
`isInitialized`: the method returns normally iff the flag is set and
otherwise throws.  -/
def ensureInitialized (s : SessionState) : Except String Unit :=
  if s.isInitialized then .ok ()
  else .error "Database not initialized: No user logged in"

/-- Method `DatabaseService.get` (db.ts lines 141–155): gate on initialization,
then read by id (404 when absent).  -/
def dbGet (s : SessionState) (st : LocalStore) (id : String) :
    Except String String :=
  match ensureInitialized s with
  | .error e => .error e
  | .ok _ =>
    match st.find? (fun kv => kv.1 == id) with
    | some kv => .ok kv.2
    | none => .error "not found"

/-- Method `DatabaseService.put` (db.ts lines 157–171): gate on initialization,
then write the document, returning the store after the call.  -/
def dbPut (s : SessionState) (st : LocalStore) (id payload : String) :
    (Except String Unit) × LocalStore :=
  match ensureInitialized s with
  | .error e => (.error e, st)
  | .ok _ => (.ok (), (st.filter (fun kv => !(kv.1 == id))).concat (id, payload))

/-- Method `DatabaseService.find` (db.ts lines 173–189): gate on initialization,
then evaluate the selector over the store.  -/
def dbFind (s : SessionState) (st : LocalStore) (sel : String × String → Bool) :
    Except String (List (String × String)) :=
  match ensureInitialized s with
  | .error e => .error e
  | .ok _ => .ok (st.filter sel)

/-- Method `DatabaseService.allDocs` (db.ts lines 191–194): gate on
initialization, then return all documents.  -/
def dbAllDocs (s : SessionState) (st : LocalStore) :
    Except String (List (String × String)) :=
  match ensureInitialized s with
  | .error e => .error e
  | .ok _ => .ok st

/-- Method `DatabaseService.remove` (db.ts lines 196–199): gate on initialization,
then delete by id, returning the store after the call.  -/
def dbRemove (s : SessionState) (st : LocalStore) (id : String) :
    (Except String Unit) × LocalStore :=
  match ensureInitialized s with
  | .error e => (.error e, st)
  | .ok _ => (.ok (), st.filter (fun kv => !(kv.1 == id)))

/-- Method `DatabaseService.changes` (db.ts lines 201–219): open a change feed on
`this.db` and register it in `activeChangesFeeds`.  The method performs no
`ensureInitialized` call and cannot fail: it returns the new feed handle
unconditionally.  `newId` stands for the fresh feed object.  -/
def changesFeed (s : SessionState) (newId : Nat) : SessionState × Nat :=
  ({ s with feeds := s.feeds ++ [newId] }, newId)

/-- An uninitialized service state: fresh singleton, no login ever made.  -/
def uninitSession : SessionState :=
  { localName := "temp-db".data, hasSync := false, feeds := [],
    tenantId := none, isInitialized := false }

/-! ## Live shape feed (`DrawingBoard` change handler, `'shape'` case)

Two revisions of the handler exist in the repository:
`src/components/DrawingBoard.tsx` (lines 166–217) and the
`setupChangesFeed` revision (lines 182–214 of the unnamed component file).
Both are embedded.  -/

/-- The persisted shape document (the `ShapeDoc` interface).  Coordinates
are integers; `createdAt` is a millisecond timestamp.  -/
structure ShapeDoc where
  docId : String
  boardId : String
  tool : String
  color : String
  strokeWidth : Nat
  points : List Int
  x : Option Int
  y : Option Int
  width : Option Int
  height : Option Int
  text : Option String
  fontSize : Option Nat
  createdAt : Nat
deriving Repr, DecidableEq

/-- The in-memory shape projection entry built by the `setupChangesFeed`
revision of the handler, which tracks `createdAt` for ordering.  -/
structure ShapeView where
  id : List Char
  tool : String
  color : String
  strokeWidth : Nat
  points : List Int
  x : Option Int
  y : Option Int
  width : Option Int
  height : Option Int
  text : Option String
  fontSize : Option Nat
  createdAt : Nat
deriving Repr, DecidableEq

/-- The in-memory shape projection entry of `src/components/DrawingBoard.tsx`
(the `Shape` type of `types/drawing`), which has no `createdAt` field.  -/
structure ShapeViewTsx where
  id : List Char
  tool : String
  color : String
  strokeWidth : Nat
  points : List Int
  x : Option Int
  y : Option Int
  width : Option Int
  height : Option Int
  text : Option String
  fontSize : Option Nat
deriving Repr, DecidableEq

/-- Expression `shapeDoc._id.split(':')[1]` — the id of a shape document.  -/
def shapeIdOf (docId : String) : List Char := splitSnd ':' docId.data

/-- The projection entry the `setupChangesFeed` handler builds for a
non-deleted shape change (its `createdAt` is `new Date()`, the fold time,
not the document's own creation time; the eraser tool renders white).  -/
def toShapeView (doc : ShapeDoc) (now : Nat) : ShapeView :=
  { id := shapeIdOf doc.docId, tool := doc.tool,
    color := if doc.tool == "eraser" then "#ffffff" else doc.color,
    strokeWidth := doc.strokeWidth, points := doc.points,
    x := doc.x, y := doc.y, width := doc.width, height := doc.height,
    text := doc.text, fontSize := doc.fontSize, createdAt := now }

/-- The projection entry the `DrawingBoard.tsx` handler builds for a shape
change.  -/
def toShapeViewTsx (doc : ShapeDoc) : ShapeViewTsx :=
  { id := shapeIdOf doc.docId, tool := doc.tool, color := doc.color,
    strokeWidth := doc.strokeWidth, points := doc.points,
    x := doc.x, y := doc.y, width := doc.width, height := doc.height,
    text := doc.text, fontSize := doc.fontSize }

/-- Case `'shape'` of the `setupChangesFeed` change handler (unnamed
component file, lines 186–215): a deleted change removes the shape by id;
otherwise the shape is upserted by id and the list re-sorted ascending by
`createdAt` (`.sort((a, b) => a.createdAt - b.createdAt)`, a stable sort).  -/
def applyShapeChange (deleted : Bool) (doc : ShapeDoc) (now : Nat)
    (shapes : List ShapeView) : List ShapeView :=
  if deleted then shapes.filter (fun s => !(s.id == shapeIdOf doc.docId))
  else
    ((shapes.filter (fun s => !(s.id == shapeIdOf doc.docId))).concat
        (toShapeView doc now)).mergeSort
      (fun a b => decide (a.createdAt ≤ b.createdAt))

/-- Case `'shape'` of the `DrawingBoard.tsx` change handler (lines
166–217).  A deleted change leaves the list unchanged: with
`include_docs`, the delivered document of a deletion is the tombstone
`{_id, _rev, _deleted}` whose `type` field is undefined, so the `switch`
on `doc.type` matches no case.  A non-deleted shape change is upserted by
id and appended at the end, with no re-sort.  -/
def applyShapeChangeTsx (deleted : Bool) (doc : ShapeDoc)
    (shapes : List ShapeViewTsx) : List ShapeViewTsx :=
  if deleted then shapes
  else (shapes.filter (fun s => !(s.id == shapeIdOf doc.docId))).concat
    (toShapeViewTsx doc)

/-- A concrete shape document for counterexample runs.  -/
def shapeDocA : ShapeDoc :=
  { docId := "shape:aaa", boardId := "b1", tool := "pen", color := "#000000",
    strokeWidth := 5, points := [0, 0], x := none, y := none, width := none,
    height := none, text := none, fontSize := none, createdAt := 100 }

/-! ## Cursor presence projection (`DrawingBoard.tsx`) -/

/-- Defined at DrawingBoard.tsx line 56 and never read anywhere.  -/
def CURSOR_CLEANUP_INTERVAL : Nat := 10000

/-- Defined at DrawingBoard.tsx line 57 and never read anywhere.  -/
def CURSOR_TTL : Nat := 30000

/-- The persisted cursor document (the `CursorDoc` interface).  -/
structure CursorDoc where
  boardId : String
  userId : String
  displayName : String
  x : Int
  y : Int
  color : String
  lastUpdated : Nat
deriving Repr, DecidableEq

/-- The in-memory cursor projection entry (the `BoardCursor` stored in
`boardState.cursors`); note it does not retain `lastUpdated`.  -/
structure BoardCursor where
  userId : String
  displayName : String
  x : Int
  y : Int
  color : String
deriving Repr, DecidableEq

/-- Case `'cursor'` of the `DrawingBoard.tsx` change handler (lines
192–210): a change from the local user is ignored; otherwise the cursor is
upserted into the `userId → cursor` map.  -/
def applyCursorChange (selfUid : String) (doc : CursorDoc)
    (cursors : List (String × BoardCursor)) : List (String × BoardCursor) :=
  if doc.userId == selfUid then cursors
  else
    (cursors.filter (fun kv => !(kv.1 == doc.userId))).concat
      (doc.userId,
        { userId := doc.userId, displayName := doc.displayName,
          x := doc.x, y := doc.y, color := doc.color })

/-- The cursor render (DrawingBoard.tsx lines 578–594):
`Object.values(boardState.cursors)` is rendered unconditionally.  The
render reads no clock and no `lastUpdated`, so the rendered set cannot
depend on the current time.  -/
def renderedCursors (cursors : List (String × BoardCursor)) : List BoardCursor :=
  cursors.map Prod.snd

/-- A peer cursor document whose `lastUpdated` is far in the past.  -/
def staleCursorDoc : CursorDoc :=
  { boardId := "b1", userId := "peer", displayName := "Peer", x := 1, y := 2,
    color := "#ff0000", lastUpdated := 0 }

/-- Every entry of a store produced by a successful `putDoc` is either an
untouched entry of the input store or carries the written document's fields
(up to the revision bump).  -/
theorem mem_putDoc {db db' : Store} {doc : UsersDoc}
    (h : db.putDoc doc = .ok db') :
    ∀ kv ∈ db', kv ∈ db ∨ kv.2 = { doc with rev := kv.2.rev } := by
  intro kv hkv
  unfold Store.putDoc at h
  split at h
  · split at h
    · injection h with h'
      subst h'
      rcases List.mem_map.mp hkv with ⟨a, ha, hfa⟩
      by_cases hk : (a.1 == doc.docId) = true
      · rw [if_pos hk] at hfa
        subst hfa
        exact Or.inr rfl
      · rw [if_neg hk] at hfa
        subst hfa
        exact Or.inl ha
    · exact Except.noConfusion h
  · split at h
    · injection h with h'
      subst h'
      cases hkv with
      | head => exact Or.inr rfl
      | tail _ htl => exact Or.inl htl
    · exact Except.noConfusion h

/-- C1 (code bug): calling `createTenant` twice for the same tenant key on
an initially empty relations store returns `true` the first time, but the
second call does not return `false`: its "already exists" check fetches the
literal key `'users'` (which never exists), so it re-attempts the put of
`_id = tenantEmail` and surfaces the store's 409 conflict as an error.  The
members set of the stored Tenant document is unchanged by the failing
second call.  -/
theorem createTenant_twice_conflicts :
    (createTenant [] "alice@x.com" 0).1 = .ok true ∧
    (createTenant ((createTenant [] "alice@x.com" 0).2) "alice@x.com" 1).1
      = .error (.status 409) ∧
    (createTenant ((createTenant [] "alice@x.com" 0).2) "alice@x.com" 1).2
      = (createTenant [] "alice@x.com" 0).2 := by
  decide

/-- C2: `verifyTenantAccess` fetches the Tenant document by key and returns
`true` iff the principal is in its `users` (members) list; when the store
reports not-found (status 404) it returns `false` rather than an error; any
other failure is surfaced verbatim to the caller.  -/
theorem verifyTenantAccess_spec (fetch : String → Except DbError UsersDoc)
    (t u : String) :
    (∀ doc, fetch t = .ok doc →
        verifyTenantAccess fetch t u = .ok (doc.users.contains u) ∧
        (verifyTenantAccess fetch t u = .ok true ↔ u ∈ doc.users)) ∧
    (fetch t = .error (.status 404) → verifyTenantAccess fetch t u = .ok false) ∧
    (∀ e, fetch t = .error e → e ≠ .status 404 →
        verifyTenantAccess fetch t u = .error e) := by
  refine ⟨?_, ?_, ?_⟩
  · intro doc hdoc
    have hv : verifyTenantAccess fetch t u = .ok (doc.users.contains u) := by
      unfold verifyTenantAccess
      rw [hdoc]
    refine ⟨hv, ?_⟩
    rw [hv]
    constructor
    · intro h
      injection h with h'
      exact List.elem_iff.mp h'
    · intro h
      have hc : doc.users.contains u = true := List.elem_iff.mpr h
      rw [hc]
  · intro h404
    unfold verifyTenantAccess
    rw [h404]
    rfl
  · intro e he hne
    have hbeq : (e == DbError.status 404) = false := by
      simpa using hne
    unfold verifyTenantAccess
    rw [he]
    simp [hbeq]

/-- Witness for C2 at concrete inputs: against the `demoFetch` store,
`carol@x.com` is verified for tenant `acme`, `dave@x.com` is not, and a
missing tenant verifies to `false` without an error.  -/
theorem verifyTenantAccess_spec_witness :
    verifyTenantAccess demoFetch "acme" "carol@x.com" = .ok true ∧
    verifyTenantAccess demoFetch "acme" "dave@x.com" = .ok false ∧
    verifyTenantAccess demoFetch "ghost" "carol@x.com" = .ok false := by
  refine ⟨?_, ?_, ?_⟩
  · exact ((verifyTenantAccess_spec demoFetch "acme" "carol@x.com").1 _ rfl).2.mpr
      (by decide)
  · exact ((verifyTenantAccess_spec demoFetch "acme" "dave@x.com").1 _ rfl).1.trans
      (by decide)
  · exact (verifyTenantAccess_spec demoFetch "ghost" "carol@x.com").2.1 rfl

/-- C6: the Tenant-document invariant `owner ∈ members` holds after every
tenant-mutating operation.  `createTenant` preserves it and every document
it adds has `owner` and `users` both set to the creating key;
`addUserToTenant` preserves it, and every entry of the resulting store is
either an untouched original entry or the written document, which keeps the
fetched document's `owner` and only extends its member list.  -/
theorem tenant_owner_member_invariant (db : Store) (hdb : TenantInv db) :
    (∀ t now, TenantInv (createTenant db t now).2) ∧
    (∀ t u now, TenantInv (addUserToTenant db t u now).2) ∧
    (∀ t now, ∀ kv ∈ (createTenant db t now).2,
        kv ∈ db ∨ (kv.2.owner = t ∧ kv.2.users = [t])) ∧
    (∀ t u now doc, db.getDoc t = .ok doc →
        ∀ kv ∈ (addUserToTenant db t u now).2,
          kv ∈ db ∨ (kv.2.owner = doc.owner ∧ doc.users ⊆ kv.2.users ∧
            u ∈ kv.2.users)) := by
  have hcreate : ∀ t now, ∀ kv ∈ (createTenant db t now).2,
      kv ∈ db ∨ (kv.2.owner = t ∧ kv.2.users = [t]) := by
    intro t now kv hkv
    unfold createTenant at hkv
    split at hkv
    · exact Or.inl hkv
    · split at hkv
      · split at hkv
        · rename_i db' hput
          rcases mem_putDoc hput kv hkv with h | h
          · exact Or.inl h
          · exact Or.inr ⟨congrArg UsersDoc.owner h, congrArg UsersDoc.users h⟩
        · exact Or.inl hkv
      · exact Or.inl hkv
  have hadd : ∀ t u now doc, db.getDoc t = .ok doc →
      ∀ kv ∈ (addUserToTenant db t u now).2,
        kv ∈ db ∨ (kv.2.owner = doc.owner ∧ doc.users ⊆ kv.2.users ∧
          u ∈ kv.2.users) := by
    intro t u now doc hget kv hkv
    unfold addUserToTenant at hkv
    split at hkv
    · rename_i e heq
      rw [hget] at heq
      exact Except.noConfusion heq
    · rename_i doc' heq
      rw [hget] at heq
      injection heq with heq'
      subst heq'
      split at hkv
      · exact Or.inl hkv
      · split at hkv
        · rename_i db' hput
          rcases mem_putDoc hput kv hkv with h | h
          · exact Or.inl h
          · have ho : kv.2.owner = doc.owner := by rw [h]
            have hu : kv.2.users = doc.users ++ [u] := by rw [h]
            refine Or.inr ⟨ho, ?_, ?_⟩
            · rw [hu]
              exact fun x hx => List.mem_append_left _ hx
            · rw [hu]
              exact List.mem_append_right _ (List.mem_singleton_self u)
        · exact Or.inl hkv
  have hget_mem : ∀ t doc, db.getDoc t = .ok doc → doc.owner ∈ doc.users := by
    intro t doc hget
    unfold Store.getDoc at hget
    split at hget
    · rename_i kv₀ hfind
      injection hget with h'
      subst h'
      exact hdb kv₀ (List.mem_of_find?_eq_some hfind)
    · exact Except.noConfusion hget
  refine ⟨?_, ?_, hcreate, hadd⟩
  · intro t now kv hkv
    rcases hcreate t now kv hkv with h | ⟨ho, hu⟩
    · exact hdb kv h
    · rw [ho, hu]
      exact List.mem_singleton_self t
  · intro t u now kv hkv
    rcases hget : db.getDoc t with e | doc
    · unfold addUserToTenant at hkv
      rw [hget] at hkv
      exact hdb kv hkv
    · rcases hadd t u now doc hget kv hkv with h | ⟨ho, hsub, _⟩
      · exact hdb kv h
      · rw [ho]
        exact hsub (hget_mem t doc hget)

/-- Witness for C6 at concrete inputs: creating tenant `acme@x.com` on an
empty relations store and then adding `bob@y.com` both leave every stored
document with its owner among its members.  -/
theorem tenant_owner_member_invariant_witness :
    TenantInv ((createTenant [] "acme@x.com" 0).2) ∧
    TenantInv ((addUserToTenant ((createTenant [] "acme@x.com" 0).2)
      "acme@x.com" "bob@y.com" 1).2) := by
  have h0 : TenantInv ([] : Store) := by
    intro kv hkv
    cases hkv
  have h1 := (tenant_owner_member_invariant [] h0).1 "acme@x.com" 0
  exact ⟨h1, (tenant_owner_member_invariant _ h1).2.1 "acme@x.com" "bob@y.com" 1⟩

/-- C7: when any of the three connection parameters (base URL, username,
password) is absent, `getRemoteDb` fails with the configuration error and
session activation (`initialize`) therefore fails; when all three are
present (set to non-empty values), `getRemoteDb` raises no such error.  -/
theorem getRemoteDb_config_spec (env : Env) (t : String) :
    ((env.couchdbUrl = none ∨ env.couchdbUser = none ∨ env.couchdbPassword = none) →
      getRemoteDb env t = .error "CouchDB environment variables are not set" ∧
      ∀ s, ((initializeDb env t s).1).isOk = false) ∧
    (envTruthy env.couchdbUrl = true → envTruthy env.couchdbUser = true →
      envTruthy env.couchdbPassword = true →
      (getRemoteDb env t).isOk = true) := by
  constructor
  · intro h
    have hget : getRemoteDb env t = .error "CouchDB environment variables are not set" := by
      have htr : (!(envTruthy env.couchdbUrl) || !(envTruthy env.couchdbUser)
          || !(envTruthy env.couchdbPassword)) = true := by
        rcases h with h | h | h <;> rw [h] <;> simp [envTruthy]
      unfold getRemoteDb
      rw [htr]
      rfl
    refine ⟨hget, ?_⟩
    intro s
    simp [initializeDb, syncWithRemote, hget, Except.isOk, Except.toBool]
  · intro h1 h2 h3
    unfold getRemoteDb
    rw [h1, h2, h3]
    simp [Except.isOk, Except.toBool]

/-- Witness for C7 at concrete inputs: with the URL unset activation's
remote-handle step fails with the configuration error; with all three
values set it succeeds.  -/
theorem getRemoteDb_config_spec_witness :
    getRemoteDb ({ couchdbUrl := none, couchdbUser := some "admin",
                   couchdbPassword := some "secret" } : Env) "alice@x.com"
      = .error "CouchDB environment variables are not set" ∧
    (getRemoteDb fullEnv "alice@x.com").isOk = true := by
  refine ⟨((getRemoteDb_config_spec _ "alice@x.com").1 (Or.inl rfl)).1, ?_⟩
  exact (getRemoteDb_config_spec fullEnv "alice@x.com").2 rfl rfl rfl

/-- Function `split('@')[0]` takes the characters before the first `'@'`.  -/
theorem splitHead_eq_takeWhile (sep : Char) (l : List Char) :
    splitHead sep l = l.takeWhile (fun c => !(c == sep)) := by
  induction l with
  | nil => rfl
  | cons c cs ih =>
    simp only [splitHead, List.takeWhile_cons]
    by_cases h : c = sep
    · simp [h]
    · simp [h, ih]

/-- C10: the local replica name and the remote database URL are derived
from `tenantEmail.split('@')[0]` only — the substring before the first
`'@'` — so two distinct tenant emails with equal local parts are mapped to
the same local database name and the same remote endpoint.  -/
theorem db_names_depend_only_on_local_part (e₁ e₂ : String) (env : Env)
    (hne : e₁ ≠ e₂) (h : localPart e₁ = localPart e₂) :
    localPart e₁ = e₁.data.takeWhile (fun c => !(c == '@')) ∧
    localDbName e₁ = localDbName e₂ ∧
    (∀ h₁ h₂, getRemoteDb env e₁ = .ok h₁ → getRemoteDb env e₂ = .ok h₂ →
      h₁.url = h₂.url) := by
  refine ⟨splitHead_eq_takeWhile '@' e₁.data, ?_, ?_⟩
  · unfold localDbName
    rw [h]
  · intro h₁ h₂ hg₁ hg₂
    by_cases hc : (!(envTruthy env.couchdbUrl) || !(envTruthy env.couchdbUser)
        || !(envTruthy env.couchdbPassword)) = true
    · unfold getRemoteDb at hg₁
      rw [if_pos hc] at hg₁
      exact Except.noConfusion hg₁
    · unfold getRemoteDb at hg₁ hg₂
      rw [if_neg hc] at hg₁ hg₂
      injection hg₁ with hh₁
      injection hg₂ with hh₂
      subst hh₁
      subst hh₂
      show (env.couchdbUrl.getD "").data ++ "/".data
          ++ localPart e₁ ++ "-collaborative-board".data
        = (env.couchdbUrl.getD "").data ++ "/".data
          ++ localPart e₂ ++ "-collaborative-board".data

      rw [h]

/-- Witness for C10 at concrete inputs: `alice@x.com` and `alice@y.com`
are distinct emails with the same local part, and they derive the same
local database name.  -/
theorem db_names_depend_only_on_local_part_witness :
    ("alice@x.com" : String) ≠ "alice@y.com" ∧
    localDbName "alice@x.com" = localDbName "alice@y.com" := by
  have h := db_names_depend_only_on_local_part "alice@x.com" "alice@y.com"
    fullEnv (by decide) (by decide)
  exact ⟨by decide, h.2.1⟩

/-- C3 (counterexample): activating a session for tenant `new@x.com` while
`oldSession` (tenant `old`, one live change feed, id 7) is active succeeds,
yet the in-flight change-feed subscription is not discarded: the resulting
state still registers feed 7, and no `cancelFeed` step occurs anywhere in
the teardown/open trace.  -/
theorem initializeDb_keeps_change_feeds :
    (initializeDb fullEnv "new@x.com" oldSession).1
      = .ok { localName := "new-collaborative-board".data, hasSync := true,
              feeds := [7], tenantId := some "new".data, isInitialized := true } ∧
    Event.cancelFeed 7 ∉ (initializeDb fullEnv "new@x.com" oldSession).2 := by
  decide

/-- C3 (amended): when session activation runs over an already-active
session, the replication stream is cancelled first and the current local
replica is closed before the new one is opened — starting from at most one
open local replica, at no instant are two open — but the in-flight
change-feed subscriptions are NOT discarded: the trace contains no
`cancelFeed` step and the surviving state keeps the old feed set
unchanged.  -/
theorem initializeDb_teardown_order (env : Env) (email : String)
    (s : SessionState) (n₀ : Int) (h₀ : n₀ ≤ 1) :
    (s.hasSync = true → (initializeDb env email s).2.head? = some .cancelSync) ∧
    (∀ c ∈ openCounts n₀ (initializeDb env email s).2, c ≤ 1) ∧
    (∀ id, Event.cancelFeed id ∉ (initializeDb env email s).2) ∧
    (∀ s', (initializeDb env email s).1 = .ok s' → s'.feeds = s.feeds) := by
  have hvals : ∀ c ∈ openCounts n₀ (initializeDb env email s).2,
      c = n₀ ∨ c = n₀ - 1 := by
    rcases hget : getRemoteDb env email with e | hdl <;> cases hs : s.hasSync <;>
      simp [initializeDb, syncWithRemote, hget, hs, openCounts, List.scanl,
        eventDelta] <;>
      omega
  refine ⟨?_, ?_, ?_, ?_⟩
  · intro hsync
    rcases hget : getRemoteDb env email with e | hdl <;>
      simp [initializeDb, syncWithRemote, hget, hsync]
  · intro c hc
    rcases hvals c hc with rfl | rfl <;> omega
  · intro id
    rcases hget : getRemoteDb env email with e | hdl <;> cases hs : s.hasSync <;>
      simp [initializeDb, syncWithRemote, hget, hs]
  · intro s' hok
    rcases hget : getRemoteDb env email with e | hdl <;>
      simp [initializeDb, syncWithRemote, hget] at hok
    rw [← hok]

/-- Witness for the amended C3 at concrete inputs: switching `oldSession`
to tenant `new@x.com` starts by cancelling the sync stream, and the
surviving state keeps feed 7.  -/
theorem initializeDb_teardown_order_witness :
    (initializeDb fullEnv "new@x.com" oldSession).2.head? = some .cancelSync ∧
    (∀ c ∈ openCounts 1 (initializeDb fullEnv "new@x.com" oldSession).2, c ≤ 1) := by
  have h := initializeDb_teardown_order fullEnv "new@x.com" oldSession 1 (by omega)
  exact ⟨h.1 rfl, h.2.1⟩

/-- An element of the first block of a three-block append, read at an index
inside that block.  -/
theorem get_append3_left {α : Type} {A B C : List α} {i : Nat}
    (hi : i < (A ++ B ++ C).length) (h : i < A.length) :
    (A ++ B ++ C).get ⟨i, hi⟩ = A[i] := by
  rw [List.get_eq_getElem]
  have h1 : i < (A ++ B).length := by
    rw [List.length_append]
    omega
  rw [List.getElem_append_left h1, List.getElem_append_left h]

/-- An element of the middle block of a three-block append, read at an
index inside that block.  -/
theorem get_append3_mid {α : Type} {A B C : List α} {i : Nat}
    (hi : i < (A ++ B ++ C).length) (hA : A.length ≤ i)
    (hAB : i < (A ++ B).length) :
    (A ++ B ++ C).get ⟨i, hi⟩
      = B.get ⟨i - A.length, by rw [List.length_append] at hAB; omega⟩ := by
  rw [List.get_eq_getElem, List.get_eq_getElem]
  rw [List.getElem_append_left hAB]
  rw [List.getElem_append_right hA]

/-- A prefix of a three-block append that reaches past the first block
contains all of it.  -/
theorem take_append3_left {α : Type} {A B C : List α} {i : Nat}
    (h : A.length ≤ i) : ∀ x ∈ A, x ∈ (A ++ B ++ C).take i := by
  intro x hx
  rw [List.take_append_eq_append_take, List.take_append_eq_append_take,
    List.take_of_length_le h]
  exact List.mem_append_left _ (List.mem_append_left _ hx)

/-- A prefix of a three-block append that reaches past the first two blocks
contains all of both.  -/
theorem take_append3_two {α : Type} {A B C : List α} {i : Nat}
    (h : (A ++ B).length ≤ i) : ∀ x ∈ A ++ B, x ∈ (A ++ B ++ C).take i := by
  intro x hx
  rw [List.take_append_eq_append_take, List.take_of_length_le h]
  exact List.mem_append_left _ hx

/-- C8: session teardown (`close`) cancels in this order: every registered
change feed first, then the replication stream, and only then closes the
local replica.  Concretely: the close of the local replica is the last
step; by the index of any `cancelSync` step every registered feed has
already been cancelled; by the index of the close step every registered
feed and (when a sync handler exists) the sync stream have already been
cancelled; and the feed registry is cleared.  -/
theorem closeSession_order (s : SessionState) :
    ((closeSession s).2.getLast? = some (.closeLocal s.localName)) ∧
    (∀ f ∈ s.feeds, Event.cancelFeed f ∈ (closeSession s).2) ∧
    (s.hasSync = true → Event.cancelSync ∈ (closeSession s).2) ∧
    (∀ i (hi : i < (closeSession s).2.length),
        (closeSession s).2.get ⟨i, hi⟩ = Event.cancelSync →
        ∀ f ∈ s.feeds, Event.cancelFeed f ∈ (closeSession s).2.take i) ∧
    (∀ i (hi : i < (closeSession s).2.length),
        (closeSession s).2.get ⟨i, hi⟩ = Event.closeLocal s.localName →
        (∀ f ∈ s.feeds, Event.cancelFeed f ∈ (closeSession s).2.take i) ∧
        (s.hasSync = true → Event.cancelSync ∈ (closeSession s).2.take i)) ∧
    ((closeSession s).1.feeds = []) := by
  refine ⟨List.getLast?_concat _, ?_, ?_, ?_, ?_, rfl⟩
  · intro f hf
    exact List.mem_append_left _ (List.mem_append_left _ (List.mem_map_of_mem _ hf))
  · intro hsy
    refine List.mem_append_left _ (List.mem_append_right _ ?_)
    simp [hsy]
  · intro i hi hget f hf
    have hg : ((s.feeds.map Event.cancelFeed)
        ++ (if s.hasSync then [Event.cancelSync] else [])
        ++ [Event.closeLocal s.localName]).get ⟨i, hi⟩ = Event.cancelSync := hget
    have hlenA : (s.feeds.map Event.cancelFeed).length ≤ i := by
      by_contra hlt
      push_neg at hlt
      rw [get_append3_left hi hlt] at hg
      rw [List.getElem_map] at hg
      exact Event.noConfusion hg
    exact take_append3_left hlenA _ (List.mem_map_of_mem _ hf)
  · intro i hi hget
    have hg : ((s.feeds.map Event.cancelFeed)
        ++ (if s.hasSync then [Event.cancelSync] else [])
        ++ [Event.closeLocal s.localName]).get ⟨i, hi⟩
          = Event.closeLocal s.localName := hget
    have hlenA : (s.feeds.map Event.cancelFeed).length ≤ i := by
      by_contra hlt
      push_neg at hlt
      rw [get_append3_left hi hlt] at hg
      rw [List.getElem_map] at hg
      exact Event.noConfusion hg
    have hlenAB : ((s.feeds.map Event.cancelFeed)
        ++ (if s.hasSync then [Event.cancelSync] else [])).length ≤ i := by
      by_contra hlt
      push_neg at hlt
      rw [get_append3_mid hi hlenA hlt] at hg
      have hmem : Event.closeLocal s.localName
          ∈ (if s.hasSync then [Event.cancelSync] else []) := by
        rw [← hg]
        exact List.get_mem _ _ _
      cases hsy : s.hasSync
      · rw [hsy] at hmem
        simp at hmem
      · rw [hsy] at hmem
        simp at hmem
    refine ⟨?_, ?_⟩
    · intro f hf
      exact take_append3_two hlenAB _
        (List.mem_append_left _ (List.mem_map_of_mem _ hf))
    · intro hsy
      refine take_append3_two hlenAB _ (List.mem_append_right _ ?_)
      simp [hsy]

/-- Witness for C8 at concrete inputs: closing `oldSession` cancels feed 7,
ends by closing the local replica, and clears the feed registry.  -/
theorem closeSession_order_witness :
    Event.cancelFeed 7 ∈ (closeSession oldSession).2 ∧
    (closeSession oldSession).2.getLast?
      = some (.closeLocal "old-collaborative-board".data) ∧
    (closeSession oldSession).1.feeds = [] := by
  have h := closeSession_order oldSession
  exact ⟨h.2.1 7 (by decide), h.1, h.2.2.2.2.2⟩

/-- C9 (counterexample): on an uninitialized service, `get` fails with the
initialization error, but opening a change-feed subscription via `changes`
does not await initialization and does not fail: it registers and returns
the new feed unconditionally.  -/
theorem changes_feed_skips_init_gate :
    dbGet uninitSession [] "board:b1"
      = .error "Database not initialized: No user logged in" ∧
    (changesFeed uninitSession 0).1.feeds = [0] ∧
    (changesFeed uninitSession 0).2 = 0 := by
  decide

/-- C9 (amended): `get`, `put`, `find`, `allDocs` and `remove` each gate on
`ensureInitialized` and, when no initialization has succeeded, fail with
the initialization error leaving the store untouched; `changes` performs no
initialization check and always registers and returns a feed.  -/
theorem ops_require_initialization (s : SessionState) (st : LocalStore)
    (h : s.isInitialized = false) :
    (∀ id, dbGet s st id = .error "Database not initialized: No user logged in") ∧
    (∀ id payload, dbPut s st id payload
        = (.error "Database not initialized: No user logged in", st)) ∧
    (∀ sel, dbFind s st sel
        = .error "Database not initialized: No user logged in") ∧
    dbAllDocs s st = .error "Database not initialized: No user logged in" ∧
    (∀ id, dbRemove s st id
        = (.error "Database not initialized: No user logged in", st)) ∧
    (∀ fid, changesFeed s fid = ({ s with feeds := s.feeds ++ [fid] }, fid)) := by
  have hgate : ensureInitialized s
      = .error "Database not initialized: No user logged in" := by
    unfold ensureInitialized
    rw [h]
    rfl
  refine ⟨?_, ?_, ?_, ?_, ?_, ?_⟩ <;> intros <;>
    simp [dbGet, dbPut, dbFind, dbAllDocs, dbRemove, changesFeed, hgate]

/-- Witness for the amended C9 at concrete inputs: a `put` on the
uninitialized service fails and leaves the (empty) store untouched, while
`changes` hands back feed 5.  -/
theorem ops_require_initialization_witness :
    dbPut uninitSession [] "board:b1" "payload"
      = (.error "Database not initialized: No user logged in", []) ∧
    (changesFeed uninitSession 5).2 = 5 := by
  have h := ops_require_initialization uninitSession [] rfl
  exact ⟨h.2.1 "board:b1" "payload", congrArg Prod.snd (h.2.2.2.2.2 5)⟩

/-- C4 (counterexample): in the `DrawingBoard.tsx` revision of the change
handler, a deletion change for shape `aaa` leaves the projection unchanged
— the deleted shape is still in the list — because the delivered tombstone
has no `type` field and the `switch` matches no case.  -/
theorem tsx_delete_change_not_removed :
    applyShapeChangeTsx true shapeDocA [toShapeViewTsx shapeDocA]
      = [toShapeViewTsx shapeDocA] ∧
    toShapeViewTsx shapeDocA
      ∈ applyShapeChangeTsx true shapeDocA [toShapeViewTsx shapeDocA] := by
  decide

/-- C4 (amended): in the `setupChangesFeed` revision of the handler, a
deletion change removes the shape with that id from the projection; a
non-deleted change upserts by id leaving exactly one entry with that id;
and both folds keep the list duplicate-free by id and ordered (ascending)
by creation time.  (In the `DrawingBoard.tsx` revision, deletions are
ignored and upserts append without re-sorting — see the counterexample.)  -/
theorem shape_feed_fold_spec (deleted : Bool) (doc : ShapeDoc) (now : Nat)
    (shapes : List ShapeView)
    (hnd : (shapes.map ShapeView.id).Nodup)
    (hsort : shapes.Sorted (fun a b => a.createdAt ≤ b.createdAt)) :
    (deleted = true →
      ∀ s ∈ applyShapeChange deleted doc now shapes, s.id ≠ shapeIdOf doc.docId) ∧
    (deleted = false →
      (applyShapeChange deleted doc now shapes).countP
        (fun s => s.id == shapeIdOf doc.docId) = 1) ∧
    ((applyShapeChange deleted doc now shapes).map ShapeView.id).Nodup ∧
    (applyShapeChange deleted doc now shapes).Sorted
      (fun a b => a.createdAt ≤ b.createdAt) := by
  have htrans : ∀ a b c : ShapeView,
      decide (a.createdAt ≤ b.createdAt) = true →
      decide (b.createdAt ≤ c.createdAt) = true →
      decide (a.createdAt ≤ c.createdAt) = true := by
    intro a b c hab hbc
    exact decide_eq_true (Nat.le_trans (of_decide_eq_true hab) (of_decide_eq_true hbc))
  have htotal : ∀ a b : ShapeView,
      (decide (a.createdAt ≤ b.createdAt) || decide (b.createdAt ≤ a.createdAt)) = true := by
    intro a b
    rcases Nat.le_total a.createdAt b.createdAt with h | h <;> simp [h]
  cases deleted
  · -- upsert path
    have happ : applyShapeChange false doc now shapes
        = ((shapes.filter (fun s => !(s.id == shapeIdOf doc.docId))).concat
            (toShapeView doc now)).mergeSort
          (fun a b => decide (a.createdAt ≤ b.createdAt)) := rfl
    have hperm := List.mergeSort_perm
      ((shapes.filter (fun s => !(s.id == shapeIdOf doc.docId))).concat
        (toShapeView doc now))
      (fun a b => decide (a.createdAt ≤ b.createdAt))
    have hfilter_ne : ∀ s ∈ shapes.filter (fun s => !(s.id == shapeIdOf doc.docId)),
        ¬ s.id = shapeIdOf doc.docId := by
      intro s hs
      have := List.of_mem_filter hs
      simpa using this
    refine ⟨fun h => Bool.noConfusion h, fun _ => ?_, ?_, ?_⟩
    · rw [happ, hperm.countP_eq]
      rw [List.concat_eq_append, List.countP_append]
      have h0 : (shapes.filter (fun s => !(s.id == shapeIdOf doc.docId))).countP
          (fun s => s.id == shapeIdOf doc.docId) = 0 := by
        rw [List.countP_eq_zero]
        intro s hs
        simpa using hfilter_ne s hs
      rw [h0]
      simp [toShapeView]
    · rw [happ]
      have hpm := (hperm.map ShapeView.id)
      rw [hpm.nodup_iff]
      rw [List.concat_eq_append, List.map_append]
      rw [List.nodup_append]
      refine ⟨?_, by simp, ?_⟩
      · exact ((List.filter_sublist shapes).map ShapeView.id).nodup hnd
      · intro x hx
        rcases List.mem_map.mp hx with ⟨s, hs, rfl⟩
        simp only [List.map_singleton, List.mem_singleton]
        intro hxe
        exact hfilter_ne s hs (by simpa [toShapeView] using hxe)
    · rw [happ]
      have := List.sorted_mergeSort htrans htotal
        ((shapes.filter (fun s => !(s.id == shapeIdOf doc.docId))).concat
          (toShapeView doc now))
      exact this.imp (fun h => of_decide_eq_true h)
  · -- delete path
    have happ : applyShapeChange true doc now shapes
        = shapes.filter (fun s => !(s.id == shapeIdOf doc.docId)) := rfl
    refine ⟨fun _ => ?_, fun h => Bool.noConfusion h, ?_, ?_⟩
    · intro s hs
      rw [happ] at hs
      have := List.of_mem_filter hs
      simpa using this
    · rw [happ]
      exact ((List.filter_sublist shapes).map ShapeView.id).nodup hnd
    · rw [happ]
      exact List.Pairwise.filter _ hsort

/-- Witness for the amended C4 at concrete inputs: folding a non-deleted
change for `shapeDocA` into the empty projection yields a list that is
duplicate-free by id and carries exactly one entry with id `aaa`.  -/
theorem shape_feed_fold_spec_witness :
    ((applyShapeChange false shapeDocA 100 []).map ShapeView.id).Nodup ∧
    (applyShapeChange false shapeDocA 100 []).countP
      (fun s => s.id == shapeIdOf shapeDocA.docId) = 1 := by
  have h := shape_feed_fold_spec false shapeDocA 100 [] (by simp) (by simp)
  exact ⟨h.2.2.1, h.2.1 rfl⟩

/-- C5 (code bug): the cursor projection applies no liveness filter at
render time.  `CURSOR_TTL` is defined (30000 ms) but never read: a peer
cursor last updated at time 0 and read at time 40000 — well past the TTL —
is still produced by the render projection (which reads no clock at all,
and whose stored entry does not even retain `lastUpdated`).  -/
theorem stale_cursor_still_rendered :
    CURSOR_TTL = 30000 ∧
    40000 - staleCursorDoc.lastUpdated > CURSOR_TTL ∧
    ({ userId := "peer", displayName := "Peer", x := 1, y := 2,
       color := "#ff0000" } : BoardCursor)
      ∈ renderedCursors (applyCursorChange "me" staleCursorDoc []) := by
  decide

end CollabBoard
